import Mathlib

/-!
Shallow embedding of the Volt-Compensation repository (src/VSA_1.py and
src/VS_RPC.py).  The pandapower network is modelled as an explicit state
(`NetState`): the load table, the shunt table, and `res`, the per-bus
voltage magnitudes produced by the last successful power-flow solve
(`net.res_bus.vm_pu`).  The external AC power-flow solver (`pp.runpp`) is
an oracle `Solver : SolveOpts → NetState → Option (List (Nat × ℚ))`; a
`none` result models the convergence `Exception` the Python code catches.
Real-number quantities (p.u. voltages, MW/MVAr) are embedded as `ℚ`; the
decimal literals of the source (0.95, 1e-6, 0.7, ...) are exact rationals.
`pp.drop_elements` called with the full index list of the rows matching a
bus is modelled extensionally as a filter; `pp.create_load` /
`pp.create_shunt` append a row to the corresponding table.
-/

/-- A row of `net.load`: owning bus, P (MW), Q (MVAr), name. -/
structure Load where
  bus : Nat
  p_mw : ℚ
  q_mvar : ℚ
  name : String
deriving Repr, DecidableEq

/-- A row of `net.shunt`: owning bus, P (MW), Q (MVAr), name. -/
structure Shunt where
  bus : Nat
  p_mw : ℚ
  q_mvar : ℚ
  name : String
deriving Repr, DecidableEq

/-- The mutable network state threaded through every operation.
`res` is `net.res_bus.vm_pu` from the last successful `pp.runpp`;
`originalLoads` is `self.original_loads`, the copy of the load table
captured in `VoltageCompensationSystem.__init__`. -/
structure NetState where
  loads : List Load
  shunts : List Shunt
  res : List (Nat × ℚ)
  originalLoads : List Load
deriving Repr, DecidableEq

def NetState.setRes (st : NetState) (r : List (Nat × ℚ)) : NetState :=
  ⟨st.loads, st.shunts, r, st.originalLoads⟩

def NetState.setShunts (st : NetState) (sh : List Shunt) : NetState :=
  ⟨st.loads, sh, st.res, st.originalLoads⟩

def NetState.setLoads (st : NetState) (ld : List Load) : NetState :=
  ⟨ld, st.shunts, st.res, st.originalLoads⟩

/-- The keyword options a call site passes to `pp.runpp`. -/
structure SolveOpts where
  maxIteration : Option Nat
  toleranceKva : Option ℚ
  algorithm : Option String
  initMode : Option String
deriving Repr, DecidableEq

/-- The external power-flow solver: given options and the current network
state it either converges, returning per-bus voltage magnitudes, or fails
(`none`, modelling the raised exception). -/
abbrev Solver := SolveOpts → NetState → Option (List (Nat × ℚ))

/-- `pp.runpp(self.net, max_iteration=30, tolerance_kva=1e-3)`. -/
def pfOpts30 : SolveOpts := ⟨some 30, some (0.001 : ℚ), none, none⟩

/-- `pp.runpp(self.net, max_iteration=50, tolerance_kva=1e-3, algorithm='nr', init='auto')`. -/
def pfOpts50 : SolveOpts := ⟨some 50, some (0.001 : ℚ), some "nr", some "auto"⟩

/-- `pp.runpp(self.net)` with default options (used by `_optimal_compensation`). -/
def pfOptsDefault : SolveOpts := ⟨none, none, none, none⟩

/-- `pp.runpp(net, max_iteration=50, tolerance_kva=1e-4)` (VS_RPC.py). -/
def pfOptsRpc : SolveOpts := ⟨some 50, some (0.0001 : ℚ), none, none⟩

/-- `res_bus.vm_pu.loc[b]`: the voltage recorded for bus `b` (first match;
the pandas index is unique in practice). -/
def vmLookup (res : List (Nat × ℚ)) (b : Nat) : ℚ :=
  match res with
  | [] => 0
  | p :: rest => if p.1 = b then p.2 else vmLookup rest b

def idxminAux (p : Nat × ℚ) : List (Nat × ℚ) → Nat × ℚ
  | [] => p
  | q :: rest => idxminAux (if q.2 < p.2 then q else p) rest

/-- `res_bus.vm_pu.idxmin()`: the first bus attaining the minimum voltage. -/
def idxmin (l : List (Nat × ℚ)) : Option Nat :=
  match l with
  | [] => none
  | p :: rest => some (idxminAux p rest).1

/-- `(res_bus.vm_pu < 0.95).sum()` as an integer (the failure marker is −1). -/
def countViolations (res : List (Nat × ℚ)) : Int :=
  ((res.filter (fun p => p.2 < (0.95 : ℚ))).length : Int)

/-- `self.net.res_bus[self.net.res_bus.vm_pu < 0.95].index.tolist()`. -/
def weakBuses (st : NetState) : List Nat :=
  (st.res.filter (fun p => p.2 < (0.95 : ℚ))).map Prod.fst

/-- The rows of the shunt table attached to `bus`. -/
def shuntsAt (st : NetState) (bus : Nat) : List Shunt :=
  st.shunts.filter (fun s => s.bus = bus)

/-- Query the shunts at `bus` and, when the frame is non-empty, drop them
by their index list (`pp.drop_elements`), i.e. keep the other rows. -/
def dropShuntsAt (st : NetState) (bus : Nat) : NetState :=
  if (st.shunts.filter (fun s => s.bus = bus)).isEmpty then st
  else st.setShunts (st.shunts.filter (fun s => s.bus ≠ bus))

/-- `pp.create_shunt(net, bus=bus, p_mw=0, q_mvar=q, name=n)`. -/
def createShunt (st : NetState) (bus : Nat) (q : ℚ) (n : String) : NetState :=
  st.setShunts (st.shunts ++ [⟨bus, 0, q, n⟩])

/-- The shunt name used by the compensation search. -/
def compName (bus : Nat) : String := "Compensation_Bus_" ++ toString bus

/-! ### Load Scenario Generator (`_modify_bus_load`, VSA_1.py lines 166-251) -/

/-- The result dictionary of `_modify_bus_load`. -/
structure ModifyResult where
  modified_bus : Nat
  weakest_bus : Option Nat
  weakest_voltage : ℚ
  voltage_violations : Int
  error : Option String
deriving Repr, DecidableEq

/-- Lines 168-186: if the bus has no load, create one with `(add_p, add_q)`;
otherwise set `P ← P·m + add_p`, `Q ← Q·m + add_q` on every load at the bus. -/
def applyLoadChange (st : NetState) (bus : Nat) (m addP addQ : ℚ) : NetState :=
  if (st.loads.filter (fun l => l.bus = bus)).isEmpty then
    st.setLoads (st.loads ++ [⟨bus, addP, addQ, "Created_Load_Bus_" ++ toString bus⟩])
  else
    st.setLoads (st.loads.map (fun l =>
      if l.bus = bus then ⟨l.bus, l.p_mw * m + addP, l.q_mvar * m + addQ, l.name⟩ else l))

/-- Lines 199-215: scale P and Q of every load at `bus` by `f` (the backoff
step; the code reaches the rows either through the captured index frame or a
fresh query, both of which are exactly the loads at `bus`). -/
def scaleLoadsAt (st : NetState) (bus : Nat) (f : ℚ) : NetState :=
  st.setLoads (st.loads.map (fun l =>
    if l.bus = bus then ⟨l.bus, l.p_mw * f, l.q_mvar * f, l.name⟩ else l))

/-- Lines 218-229: if the original snapshot has loads at `bus`, drop the
current loads at `bus` and re-create the snapshot rows (appended). -/
def restoreOriginalLoadsAt (st : NetState) (bus : Nat) : NetState :=
  let orig := st.originalLoads.filter (fun l => l.bus = bus)
  if orig.isEmpty then st
  else st.setLoads (st.loads.filter (fun l => l.bus ≠ bus) ++ orig)

/-- Lines 244-251: read the weakest bus and violation count from `res_bus`. -/
def finishModify (st : NetState) (bus : Nat) : ModifyResult × NetState :=
  let wk := idxmin st.res
  (⟨bus, wk, (match wk with | some b => vmLookup st.res b | none => 0),
    countViolations st.res, none⟩, st)

/-- `_modify_bus_load`: apply the load change, then up to 3 solve attempts
with a 0.7 backoff between them; after the third failure restore the
original loads at the bus and try one conservative solve; if that also
fails return the failure marker dictionary (violations = −1, weakest bus
= None). -/
def modify_bus_load (solver : Solver) (st : NetState) (bus : Nat)
    (m addP addQ : ℚ) : ModifyResult × NetState :=
  let st0 := applyLoadChange st bus m addP addQ
  match solver pfOpts50 st0 with
  | some res => finishModify (st0.setRes res) bus
  | none =>
    let st1 := scaleLoadsAt st0 bus (0.7 : ℚ)
    match solver pfOpts50 st1 with
    | some res => finishModify (st1.setRes res) bus
    | none =>
      let st2 := scaleLoadsAt st1 bus (0.7 : ℚ)
      match solver pfOpts50 st2 with
      | some res => finishModify (st2.setRes res) bus
      | none =>
        let st3 := restoreOriginalLoadsAt st2 bus
        match solver pfOpts30 st3 with
        | some res => finishModify (st3.setRes res) bus
        | none =>
          (⟨bus, none, 0, -1, some "Power flow convergence failed"⟩, st3)

/-! ### Compensation Search Engine (`_compensate_single_bus`, lines 341-444) -/

/-- The per-bus result dictionary of `_compensate_single_bus`. -/
structure CompResult where
  bus_id : Nat
  initial_voltage : ℚ
  final_voltage : ℚ
  q_injected : ℚ
  improvement : ℚ
  status : String
deriving Repr, DecidableEq

/-- Why the search loop stopped.  `qLimit` is the `while`-condition turning
false, `target` the `current_voltage >= 0.95` break, `plateau` the
minimal-improvement break, `solverFail` the exception handler, and
`fuelOut` marks exhaustion of the termination fuel (proved unreachable for
sufficient fuel in the termination claim). -/
inductive ExitKind
  | target
  | plateau
  | solverFail
  | qLimit
  | fuelOut
deriving Repr, DecidableEq

/-- The loop state when the search loop stops: final network state, the
`q_inject`, `best_q`, `best_voltage` variables, the exit reason, and, as
ghost instrumentation, the network state handed to the solver at each loop
iteration (used to express run-time invariants). -/
structure LoopOut where
  st : NetState
  q_inject : ℚ
  best_q : ℚ
  best_voltage : ℚ
  exit : ExitKind
  solveStates : List NetState
deriving Repr, DecidableEq

/-- The `while q_inject < max_q` search loop of `_compensate_single_bus`
(lines 377-425), fuel-indexed.  Each iteration increments `q_inject` by
`step_q`, replaces the shunt at the bus by one of magnitude `q_inject`,
and solves; on success it updates the best-seen pair, breaks on target
reached or on a plateau, otherwise continues; on failure it removes the
failing shunt, re-creates the best one when `best_q > 0` (re-solving once,
ignoring a second failure), and breaks. -/
def searchLoop (solver : Solver) (bus : Nat) (max_q step_q : ℚ) :
    Nat → NetState → ℚ → ℚ → ℚ → ℚ → LoopOut
  | 0, st, q_inject, _, best_q, best_voltage =>
    if q_inject < max_q then ⟨st, q_inject, best_q, best_voltage, .fuelOut, []⟩
    else ⟨st, q_inject, best_q, best_voltage, .qLimit, []⟩
  | fuel + 1, st, q_inject, prev_voltage, best_q, best_voltage =>
    if q_inject < max_q then
      let q := q_inject + step_q
      let st2 := createShunt (dropShuntsAt st bus) bus (-q) (compName bus)
      match solver pfOpts50 st2 with
      | some res =>
        let st3 := st2.setRes res
        let v := vmLookup res bus
        let bq := if best_voltage < v then q else best_q
        let bv := if best_voltage < v then v else best_voltage
        if (0.95 : ℚ) ≤ v then ⟨st3, q, bq, bv, .target, [st2]⟩
        else if v ≤ prev_voltage + (1/1000000 : ℚ) then ⟨st3, q, bq, bv, .plateau, [st2]⟩
        else
          let out := searchLoop solver bus max_q step_q fuel st3 q v bq bv
          ⟨out.st, out.q_inject, out.best_q, out.best_voltage, out.exit, st2 :: out.solveStates⟩
      | none =>
        let st3 := dropShuntsAt st2 bus
        let st4 :=
          if 0 < best_q then
            let st4a := createShunt st3 bus (-best_q) (compName bus)
            match solver pfOpts30 st4a with
            | some res => st4a.setRes res
            | none => st4a
          else st3
        ⟨st4, q, best_q, best_voltage, .solverFail, [st2]⟩
    else ⟨st, q_inject, best_q, best_voltage, .qLimit, []⟩

/-- The full outcome of `_compensate_single_bus`: the returned dictionary,
the final network state, and (when the search loop ran) its loop state. -/
structure CompOut where
  result : CompResult
  st : NetState
  loopOut : Option LoopOut
deriving Repr, DecidableEq

/-- `_compensate_single_bus(bus_id, max_q, step_q)`: initial solve (early
return on failure, early return with status "No compensation needed" when
the initial voltage is at least 0.95), removal of any pre-existing shunt at
the bus, the search loop, a final solve (falling back to `best_voltage` on
failure), and the result dictionary whose `q_injected` is
`best_q if best_q > 0 else q_inject`. -/
def compensate_single_bus (solver : Solver) (fuel : Nat) (st : NetState)
    (bus_id : Nat) (max_q step_q : ℚ) : CompOut :=
  match solver pfOpts30 st with
  | none => ⟨⟨bus_id, 0, 0, 0, 0, "Power flow failed"⟩, st, none⟩
  | some res =>
    let st0 := st.setRes res
    let initial := vmLookup res bus_id
    if (0.95 : ℚ) ≤ initial then
      ⟨⟨bus_id, initial, initial, 0, 0, "No compensation needed"⟩, st0, none⟩
    else
      let st1 := dropShuntsAt st0 bus_id
      let lo := searchLoop solver bus_id max_q step_q fuel st1 0 initial 0 initial
      let fpair :=
        match solver pfOpts30 lo.st with
        | some res2 => (vmLookup res2 bus_id, lo.st.setRes res2)
        | none => (lo.best_voltage, lo.st)
      let final := fpair.1
      let status := if (0.95 : ℚ) ≤ final then "Success" else "Limited improvement"
      ⟨⟨bus_id, initial, final, (if 0 < lo.best_q then lo.best_q else lo.q_inject),
        final - initial, status⟩, fpair.2, some lo⟩

/-! ### Strategy Selector (VSA_1.py lines 253-339) -/

/-- The uniform result shape of the three strategies.  The empty-violation
short-circuit of the Python code returns a dictionary with only a message
and an empty bus list; it is embedded with `strategy = none`,
`total_q_injected = 0`. -/
structure StrategyResult where
  strategy : Option String
  message : Option String
  compensated_buses : List CompResult
  total_q_injected : ℚ
deriving Repr, DecidableEq

/-- The short-circuit value when no bus violates the threshold. -/
def noCompensationResult : StrategyResult :=
  ⟨none, some "No buses require compensation", [], 0⟩

/-- `_targeted_compensation` (lines 268-283): compensate only the weakest
bus (`res_bus.vm_pu.idxmin()`). -/
def targeted_compensation (solver : Solver) (fuel : Nat) (st : NetState) :
    StrategyResult × NetState :=
  if (weakBuses st).isEmpty then (noCompensationResult, st)
  else
    let wb := (idxmin st.res).getD 0
    let out := compensate_single_bus solver fuel st wb 100 2
    (⟨some "targeted", none, [out.result], out.result.q_injected⟩, out.st)

/-- The accumulation loop of `_global_compensation` (lines 295-298). -/
def globalGo (solver : Solver) (fuel : Nat) :
    List Nat → List CompResult → ℚ → NetState → List CompResult × ℚ × NetState
  | [], acc, total, st => (acc, total, st)
  | b :: rest, acc, total, st =>
    let out := compensate_single_bus solver fuel st b 100 2
    globalGo solver fuel rest (acc ++ [out.result]) (total + out.result.q_injected) out.st

/-- `_global_compensation` (lines 285-304): compensate every violating bus,
accumulating the entries and the total injected Q. -/
def global_compensation (solver : Solver) (fuel : Nat) (st : NetState) :
    StrategyResult × NetState :=
  if (weakBuses st).isEmpty then (noCompensationResult, st)
  else
    let g := globalGo solver fuel (weakBuses st) [] 0 st
    (⟨some "global", none, g.1, g.2.1⟩, g.2.2)

/-- Stable insertion of `a` in front of the first element whose key is not
larger (descending order; ties keep the earlier element first, matching
Python's stable `list.sort(key=..., reverse=True)`). -/
def insertDescBy (key : α → ℚ) (a : α) : List α → List α
  | [] => [a]
  | b :: bs => if key b ≤ key a then a :: b :: bs else b :: insertDescBy key a bs

/-- Stable sort in descending key order (`bus_priorities.sort(key=lambda x:
x[1], reverse=True)`, line 321). -/
def sortDescBy (key : α → ℚ) : List α → List α
  | [] => []
  | a :: as => insertDescBy key a (sortDescBy key as)

/-- The per-bus loop of `_optimal_compensation` (lines 326-333) over the
priority triples `(bus_id, priority_score, voltage)`: the stale `voltage`
recorded at selection time is re-tested, then the network is re-solved
(a failure of this bare `pp.runpp` propagates as an uncaught exception,
embedded as `Except.error`) and the bus is compensated with `max_q = 75`
only if its fresh voltage is still below 0.95. -/
def optimalGo (solver : Solver) (fuel : Nat) :
    List (Nat × ℚ × ℚ) → List CompResult → ℚ → NetState →
    Except String (StrategyResult × NetState)
  | [], acc, total, st => .ok (⟨some "optimal", none, acc, total⟩, st)
  | t :: rest, acc, total, st =>
    if t.2.2 < (0.95 : ℚ) then
      match solver pfOptsDefault st with
      | none => .error "power flow did not converge"
      | some res =>
        let st1 := st.setRes res
        if vmLookup res t.1 < (0.95 : ℚ) then
          let out := compensate_single_bus solver fuel st1 t.1 75 2
          optimalGo solver fuel rest (acc ++ [out.result])
            (total + out.result.q_injected) out.st
        else optimalGo solver fuel rest acc total st1
    else optimalGo solver fuel rest acc total st

/-- `_optimal_compensation` (lines 306-339): build `(bus, 1/voltage,
voltage)` triples for the violating buses, sort them by score descending,
and run the per-bus loop. -/
def optimal_compensation (solver : Solver) (fuel : Nat) (st : NetState) :
    Except String (StrategyResult × NetState) :=
  if (weakBuses st).isEmpty then .ok (noCompensationResult, st)
  else
    let prios := (weakBuses st).map
      (fun b => (b, 1 / vmLookup st.res b, vmLookup st.res b))
    optimalGo solver fuel (sortDescBy (fun t => t.2.1) prios) [] 0 st

/-- The per-bus loop of the Optimal strategy as the spec words it
(spec 4.4): process the violating buses in descending priority; before
compensating each bus, re-solve and re-check whether it is still
violating; apply the tighter 75 MVAr cap. -/
def optimalSpecGo (solver : Solver) (fuel : Nat) :
    List Nat → List CompResult → ℚ → NetState →
    Except String (StrategyResult × NetState)
  | [], acc, total, st => .ok (⟨some "optimal", none, acc, total⟩, st)
  | b :: rest, acc, total, st =>
    match solver pfOptsDefault st with
    | none => .error "power flow did not converge"
    | some res =>
      let st1 := st.setRes res
      if vmLookup res b < (0.95 : ℚ) then
        let out := compensate_single_bus solver fuel st1 b 75 2
        optimalSpecGo solver fuel rest (acc ++ [out.result])
          (total + out.result.q_injected) out.st
      else optimalSpecGo solver fuel rest acc total st1

/-- The Optimal strategy written from the spec's words (spec 4.4): a
priority score `1/voltage` per violating bus, buses processed in
descending score order, re-solve and re-check before each compensation,
per-bus cap 75 MVAr. -/
def optimalCompensationSpec (solver : Solver) (fuel : Nat) (st : NetState) :
    Except String (StrategyResult × NetState) :=
  if (weakBuses st).isEmpty then .ok (noCompensationResult, st)
  else
    optimalSpecGo solver fuel
      (sortDescBy (fun b => 1 / vmLookup st.res b) (weakBuses st)) [] 0 st

/-- `apply_voltage_compensation` (lines 253-266): dispatch on the strategy
name; an unknown name is replaced by "targeted" (with a warning) and the
run continues.  The Except layer carries the uncaught power-flow exception
that `_optimal_compensation` can propagate. -/
def apply_voltage_compensation (solver : Solver) (fuel : Nat) (st : NetState)
    (strategy : String) : Except String (StrategyResult × NetState) :=
  let s := if strategy = "targeted" ∨ strategy = "global" ∨ strategy = "optimal"
    then strategy else "targeted"
  if s = "global" then .ok (global_compensation solver fuel st)
  else if s = "optimal" then optimal_compensation solver fuel st
  else .ok (targeted_compensation solver fuel st)

/-! ### Scenario dispatch, reset, construction -/

/-- The four scenario handlers of `create_weak_bus_scenario`. -/
inductive ScenarioMode
  | interactive
  | autoWeakest
  | autoRandom
  | globalIncrease
deriving Repr, DecidableEq

/-- The dispatch of `create_weak_bus_scenario` (lines 75-86).  The handler
bodies involve console input and randomness, which the spec places out of
scope, so the dispatch is embedded as returning which handler runs;
`Except.error` models the `raise ValueError(f"Unknown mode: ...")` of the
final branch. -/
def create_weak_bus_scenario (mode : String) : Except String ScenarioMode :=
  if mode = "interactive" then .ok .interactive
  else if mode = "auto_weakest" then .ok .autoWeakest
  else if mode = "auto_random" then .ok .autoRandom
  else if mode = "global_increase" then .ok .globalIncrease
  else .error ("Unknown mode: " ++ mode)

/-- `reset_network` (lines 481-490): drop every shunt (by the full index
list, guarded by a non-emptiness test) and replace the load table by the
captured original snapshot. -/
def reset_network (st : NetState) : NetState :=
  let st1 := if st.shunts.isEmpty then st else st.setShunts []
  st1.setLoads st1.originalLoads

/-- `VoltageCompensationSystem.__init__` (lines 8-12): the load snapshot
`original_loads` is a copy of the load table at construction time. -/
def initSystem (loads : List Load) (shunts : List Shunt)
    (res : List (Nat × ℚ)) : NetState :=
  ⟨loads, shunts, res, loads⟩

/-! ### The VS_RPC.py compensation loop (lines 59-74) -/

/-- The loop state when the VS_RPC loop stops.  `exit = qLimit` means the
`while` condition (`voltage < 0.95 and q_inject <= max_q`) turned false,
`plateau` the `voltage <= prev_voltage` break, `solverFail` an uncaught
`pp.runpp` exception aborting the script. -/
structure RpcOut where
  st : NetState
  q_inject : ℚ
  voltage : ℚ
  prev_voltage : ℚ
  exit : ExitKind
deriving Repr, DecidableEq

/-- The `while voltage < 0.95 and q_inject <= max_q` loop of VS_RPC.py:
drop the old shunts at the bus, increment `q_inject`, create the new
shunt, solve (uncaught on failure), and break when the voltage did not
strictly improve. -/
def rpcLoop (solver : Solver) (bus : Nat) (max_q step_q : ℚ) :
    Nat → NetState → ℚ → ℚ → ℚ → RpcOut
  | 0, st, q_inject, voltage, prev_voltage =>
    if voltage < (0.95 : ℚ) ∧ q_inject ≤ max_q then
      ⟨st, q_inject, voltage, prev_voltage, .fuelOut⟩
    else ⟨st, q_inject, voltage, prev_voltage, .qLimit⟩
  | fuel + 1, st, q_inject, voltage, prev_voltage =>
    if voltage < (0.95 : ℚ) ∧ q_inject ≤ max_q then
      let st1 := dropShuntsAt st bus
      let q := q_inject + step_q
      let st2 := createShunt st1 bus (-q) "VoltageCompensation"
      match solver pfOptsRpc st2 with
      | none => ⟨st2, q, voltage, prev_voltage, .solverFail⟩
      | some res =>
        let st3 := st2.setRes res
        let v := vmLookup res bus
        if v ≤ prev_voltage then ⟨st3, q, v, prev_voltage, .plateau⟩
        else rpcLoop solver bus max_q step_q fuel st3 q v v
    else ⟨st, q_inject, voltage, prev_voltage, .qLimit⟩

/-- Fuel sufficient for `searchLoop` starting at accumulated injection
`q0`: the number of `step_q` increments needed to reach `max_q`. -/
def searchFuelBound (max_q step_q q0 : ℚ) : Nat :=
  (⌈(max_q - q0) / step_q⌉).toNat

/-- Fuel sufficient for `rpcLoop` starting at accumulated injection `q0`
(the condition is the non-strict `q_inject <= max_q`, hence one more
iteration than the strict bound). -/
def rpcFuelBound (max_q step_q q0 : ℚ) : Nat :=
  if q0 ≤ max_q then (⌈(max_q - q0) / step_q⌉).toNat + 1 else 0

/-! ### Concrete solvers and states used by witnesses and counterexamples -/

/-- A solver that never converges. -/
def noneSolver : Solver := fun _ _ => none

/-- A solver that always reports 0.96 p.u. at bus 0. -/
def okSolver96 : Solver := fun _ _ => some [(0, (0.96 : ℚ))]

/-- The empty network. -/
def emptyNet : NetState := ⟨[], [], [], []⟩

/-- A solver for which the very first injection step lowers the voltage at
bus 0 from 0.90 to 0.89 p.u. (it reports 0.90 while no shunt is installed
and 0.89 once one is). -/
def dipSolver : Solver := fun _ st =>
  if st.shunts.isEmpty then some [(0, (0.9 : ℚ))] else some [(0, (0.89 : ℚ))]

/-- A network whose last solve recorded 0.90 p.u. at bus 0. -/
def weakNet : NetState := ⟨[], [], [(0, (0.9 : ℚ))], []⟩

/-- Like `dipSolver`, but in addition the conservative re-solve
(`max_iteration=30`) fails once a shunt is installed: the search dips to
0.89, stops on the plateau, and the final voltage check cannot converge. -/
def dipFailSolver : Solver := fun opts st =>
  if st.shunts.isEmpty then some [(0, (0.9 : ℚ))]
  else if opts = pfOpts50 then some [(0, (0.89 : ℚ))]
  else none

/-- The loop outcome of the search run by
`compensate_single_bus dipFailSolver 50 emptyNet 0 100 2`: one iteration,
plateau exit with the dip recorded, best pair still (0, 0.90). -/
def dipLoopOut : LoopOut :=
  ⟨⟨[], [⟨0, 0, -2, "Compensation_Bus_0"⟩], [(0, (0.89 : ℚ))], []⟩, 2, 0, (0.9 : ℚ),
    .plateau, [⟨[], [⟨0, 0, -2, "Compensation_Bus_0"⟩], [(0, (0.9 : ℚ))], []⟩]⟩

/-- A solver that converges (0.90 p.u. at bus 0) while no shunt is
installed and fails as soon as one is: the search loop fails on its first
step with `best_q = 0`, exercising the revert path that removes the
failing shunt and recreates nothing. -/
def loopFailSolver : Solver := fun _ st =>
  if st.shunts.isEmpty then some [(0, (0.9 : ℚ))] else none

/-- The loop outcome of the search run by
`compensate_single_bus loopFailSolver 50 emptyNet 0 100 2`: the first
iteration's solve fails, the failing shunt is removed and, since
`best_q = 0`, no replacement is created. -/
def failLoopOut : LoopOut :=
  ⟨⟨[], [], [(0, (0.9 : ℚ))], []⟩, 2, 0, (0.9 : ℚ), .solverFail,
    [⟨[], [⟨0, 0, -2, "Compensation_Bus_0"⟩], [(0, (0.9 : ℚ))], []⟩]⟩

/-! ### Basic frame lemmas -/

@[simp] lemma NetState.setRes_loads (st : NetState) (r : List (Nat × ℚ)) :
    (st.setRes r).loads = st.loads := rfl

@[simp] lemma NetState.setRes_shunts (st : NetState) (r : List (Nat × ℚ)) :
    (st.setRes r).shunts = st.shunts := rfl

@[simp] lemma NetState.setRes_res (st : NetState) (r : List (Nat × ℚ)) :
    (st.setRes r).res = r := rfl

@[simp] lemma NetState.setRes_originalLoads (st : NetState) (r : List (Nat × ℚ)) :
    (st.setRes r).originalLoads = st.originalLoads := rfl

@[simp] lemma NetState.setShunts_shunts (st : NetState) (sh : List Shunt) :
    (st.setShunts sh).shunts = sh := rfl

@[simp] lemma NetState.setShunts_originalLoads (st : NetState) (sh : List Shunt) :
    (st.setShunts sh).originalLoads = st.originalLoads := rfl

@[simp] lemma NetState.setLoads_loads (st : NetState) (ld : List Load) :
    (st.setLoads ld).loads = ld := rfl

@[simp] lemma NetState.setLoads_originalLoads (st : NetState) (ld : List Load) :
    (st.setLoads ld).originalLoads = st.originalLoads := rfl

@[simp] lemma dropShuntsAt_originalLoads (st : NetState) (bus : Nat) :
    (dropShuntsAt st bus).originalLoads = st.originalLoads := by
  unfold dropShuntsAt; split <;> rfl

@[simp] lemma createShunt_originalLoads (st : NetState) (bus : Nat) (q : ℚ) (n : String) :
    (createShunt st bus q n).originalLoads = st.originalLoads := rfl

@[simp] lemma applyLoadChange_originalLoads (st : NetState) (bus : Nat) (m addP addQ : ℚ) :
    (applyLoadChange st bus m addP addQ).originalLoads = st.originalLoads := by
  unfold applyLoadChange; split <;> rfl

@[simp] lemma scaleLoadsAt_originalLoads (st : NetState) (bus : Nat) (f : ℚ) :
    (scaleLoadsAt st bus f).originalLoads = st.originalLoads := rfl

@[simp] lemma restoreOriginalLoadsAt_originalLoads (st : NetState) (bus : Nat) :
    (restoreOriginalLoadsAt st bus).originalLoads = st.originalLoads := by
  unfold restoreOriginalLoadsAt; dsimp only; split <;> rfl

lemma searchLoop_originalLoads (solver : Solver) (bus : Nat) (max_q step_q : ℚ) :
    ∀ (fuel : Nat) (st : NetState) (q pv bq bv : ℚ),
      (searchLoop solver bus max_q step_q fuel st q pv bq bv).st.originalLoads =
        st.originalLoads := by
  intro fuel
  induction fuel with
  | zero => intro st q pv bq bv; unfold searchLoop; split <;> rfl
  | succ n ih =>
    intro st q pv bq bv
    simp only [searchLoop]
    split
    · split
      · split
        · simp
        · split
          · simp
          · simp [ih]
      · split
        · split <;> simp
        · simp
    · rfl

lemma compensate_single_bus_originalLoads (solver : Solver) (fuel : Nat)
    (st : NetState) (bus : Nat) (max_q step_q : ℚ) :
    (compensate_single_bus solver fuel st bus max_q step_q).st.originalLoads =
      st.originalLoads := by
  unfold compensate_single_bus
  split
  · rfl
  · dsimp only
    split
    · simp
    · dsimp only
      split <;> simp [searchLoop_originalLoads]

lemma modify_bus_load_originalLoads (solver : Solver) (st : NetState) (bus : Nat)
    (m addP addQ : ℚ) :
    (modify_bus_load solver st bus m addP addQ).2.originalLoads = st.originalLoads := by
  unfold modify_bus_load
  dsimp only
  split
  · simp [finishModify]
  · split
    · simp [finishModify]
    · split
      · simp [finishModify]
      · split <;> simp [finishModify]

/-! ### Claim C1 -/

/-- C1: for every bus whose initial power-flow voltage is at least the
0.95 p.u. threshold, `_compensate_single_bus` returns a result with
`q_injected = 0`, `improvement = 0` and status "No compensation needed",
and the network's shunt table is unchanged by the call. -/
theorem C1_no_compensation_needed (solver : Solver) (fuel : Nat) (st : NetState)
    (bus : Nat) (max_q step_q : ℚ) (res : List (Nat × ℚ))
    (hsolve : solver pfOpts30 st = some res)
    (hv : (0.95 : ℚ) ≤ vmLookup res bus) :
    (compensate_single_bus solver fuel st bus max_q step_q).result =
      ⟨bus, vmLookup res bus, vmLookup res bus, 0, 0, "No compensation needed"⟩ ∧
    (compensate_single_bus solver fuel st bus max_q step_q).st.shunts = st.shunts := by
  unfold compensate_single_bus
  rw [hsolve]
  dsimp only
  rw [if_pos hv]
  exact ⟨rfl, rfl⟩

/-- C1 witness: a concrete run of the theorem at bus 0 with voltage
0.96 p.u. -/
theorem C1_witness :
    okSolver96 pfOpts30 emptyNet = some [(0, (0.96 : ℚ))] ∧
    (0.95 : ℚ) ≤ vmLookup [(0, (0.96 : ℚ))] 0 ∧
    ((compensate_single_bus okSolver96 50 emptyNet 0 100 2).result =
      ⟨0, vmLookup [(0, (0.96 : ℚ))] 0, vmLookup [(0, (0.96 : ℚ))] 0, 0, 0,
        "No compensation needed"⟩ ∧
      (compensate_single_bus okSolver96 50 emptyNet 0 100 2).st.shunts =
        emptyNet.shunts) :=
  ⟨rfl, of_decide_eq_true (by with_unfolding_all rfl),
    C1_no_compensation_needed okSolver96 50 emptyNet 0 100 2 _ rfl
      (of_decide_eq_true (by with_unfolding_all rfl))⟩

/-! ### Claim C3 (corrected) -/

/-- C3 counterexample: an unrecognized mode passed to
`create_weak_bus_scenario` raises `ValueError` (line 86 of VSA_1.py) — it
does not substitute a default and continue, contrary to the claim. -/
theorem C3_counterexample :
    create_weak_bus_scenario "bogus" = Except.error "Unknown mode: bogus" := rfl

/-- C3 amended: an unrecognized strategy passed to
`apply_voltage_compensation` substitutes the default "targeted" strategy
and continues normally, but an unrecognized mode passed to
`create_weak_bus_scenario` raises `ValueError` rather than substituting a
default. -/
theorem C3_amended (mode strategy : String) (solver : Solver) (fuel : Nat)
    (st : NetState)
    (hm1 : mode ≠ "interactive") (hm2 : mode ≠ "auto_weakest")
    (hm3 : mode ≠ "auto_random") (hm4 : mode ≠ "global_increase")
    (hs1 : strategy ≠ "targeted") (hs2 : strategy ≠ "global")
    (hs3 : strategy ≠ "optimal") :
    create_weak_bus_scenario mode = Except.error ("Unknown mode: " ++ mode) ∧
    apply_voltage_compensation solver fuel st strategy =
      Except.ok (targeted_compensation solver fuel st) := by
  constructor
  · simp [create_weak_bus_scenario, hm1, hm2, hm3, hm4]
  · simp [apply_voltage_compensation, hs1, hs2, hs3]

/-- C3 witness: a concrete unrecognized mode and strategy. -/
theorem C3_witness :
    create_weak_bus_scenario "bogus2" = Except.error ("Unknown mode: " ++ "bogus2") ∧
    apply_voltage_compensation noneSolver 50 emptyNet "bogus2" =
      Except.ok (targeted_compensation noneSolver 50 emptyNet) :=
  C3_amended "bogus2" "bogus2" noneSolver 50 emptyNet (by decide) (by decide)
    (by decide) (by decide) (by decide) (by decide) (by decide)

/-! ### Claim C4 -/

/-- C4: when the solver fails on all three retry attempts of
`_modify_bus_load` and also on the final conservative solve after the
original loads at the bus are restored, the function returns (does not
raise) the failure-marker dictionary with `voltage_violations = -1` and
`weakest_bus = None`. -/
theorem C4_modify_failure (solver : Solver) (st : NetState) (bus : Nat)
    (m addP addQ : ℚ)
    (h0 : solver pfOpts50 (applyLoadChange st bus m addP addQ) = none)
    (h1 : solver pfOpts50
      (scaleLoadsAt (applyLoadChange st bus m addP addQ) bus (0.7 : ℚ)) = none)
    (h2 : solver pfOpts50
      (scaleLoadsAt (scaleLoadsAt (applyLoadChange st bus m addP addQ) bus (0.7 : ℚ))
        bus (0.7 : ℚ)) = none)
    (h3 : solver pfOpts30
      (restoreOriginalLoadsAt
        (scaleLoadsAt (scaleLoadsAt (applyLoadChange st bus m addP addQ) bus (0.7 : ℚ))
          bus (0.7 : ℚ)) bus) = none) :
    (modify_bus_load solver st bus m addP addQ).1 =
      ⟨bus, none, 0, -1, some "Power flow convergence failed"⟩ := by
  unfold modify_bus_load
  dsimp only
  rw [h0, h1, h2, h3]

/-- C4 witness: the never-converging solver on a concrete scenario call. -/
theorem C4_witness :
    (modify_bus_load noneSolver emptyNet 3 2 20 10).1 =
      ⟨3, none, 0, -1, some "Power flow convergence failed"⟩ :=
  C4_modify_failure noneSolver emptyNet 3 2 20 10 rfl rfl rfl rfl

/-! ### Claim C7 -/

/-- C7: after any call to `reset_network` the network contains no shunts
and the load table equals the snapshot captured at construction time
(`original_loads`), exactly; the snapshot itself is the constructor-time
load table and is never modified by the mutating operations. -/
theorem C7_reset_network (st : NetState) (loads : List Load)
    (shunts : List Shunt) (res : List (Nat × ℚ)) (solver : Solver)
    (fuel : Nat) (bus : Nat) (max_q step_q m addP addQ : ℚ) :
    (reset_network st).shunts = [] ∧
    (reset_network st).loads = st.originalLoads ∧
    (initSystem loads shunts res).originalLoads = (initSystem loads shunts res).loads ∧
    (compensate_single_bus solver fuel st bus max_q step_q).st.originalLoads =
      st.originalLoads ∧
    (modify_bus_load solver st bus m addP addQ).2.originalLoads = st.originalLoads := by
  refine ⟨?_, ?_, rfl, compensate_single_bus_originalLoads solver fuel st bus max_q step_q,
    modify_bus_load_originalLoads solver st bus m addP addQ⟩
  · unfold reset_network
    dsimp only
    split
    · next h => simpa using h
    · rfl
  · unfold reset_network
    dsimp only
    split <;> rfl

/-! ### Claim C2 (corrected) -/

lemma le_ite_voltage (bv v : ℚ) : bv ≤ if bv < v then v else bv := by
  split
  · exact le_of_lt (by assumption)
  · exact le_refl bv

/-- The `best_voltage` tracked by the search loop never drops below the
value it starts from. -/
lemma searchLoop_best_voltage_mono (solver : Solver) (bus : Nat)
    (max_q step_q : ℚ) :
    ∀ (fuel : Nat) (st : NetState) (q pv bq bv : ℚ),
      bv ≤ (searchLoop solver bus max_q step_q fuel st q pv bq bv).best_voltage := by
  intro fuel
  induction fuel with
  | zero =>
    intro st q pv bq bv
    unfold searchLoop; split <;> exact le_refl bv
  | succ n ih =>
    intro st q pv bq bv
    simp only [searchLoop]
    split
    · split
      · split
        · exact le_ite_voltage _ _
        · split
          · exact le_ite_voltage _ _
          · exact le_trans (le_ite_voltage _ _) (ih _ _ _ _ _)
      · exact le_refl bv
    · exact le_refl bv

set_option maxRecDepth 8000

/-- C2 counterexample: with `dipSolver` (initial voltage 0.90, first
injection step dips the voltage to 0.89) the search terminates by plateau,
and the returned final voltage is strictly below the initial voltage —
and the returned pair (q_injected, final_voltage) = (2, 0.89) is not the
best-voltage state observed, which was (0, 0.90). -/
theorem C2_counterexample :
    (compensate_single_bus dipSolver 50 emptyNet 0 100 2).result.final_voltage <
      (compensate_single_bus dipSolver 50 emptyNet 0 100 2).result.initial_voltage ∧
    (compensate_single_bus dipSolver 50 emptyNet 0 100 2).result.q_injected = 2 :=
  ⟨of_decide_eq_true (by with_unfolding_all rfl),
   of_decide_eq_true (by with_unfolding_all rfl)⟩

/-- C2 amended: for every run of `_compensate_single_bus` whose search loop
executes, the best-seen voltage tracked by the loop is at least the
initial voltage; when the final re-solve fails, the returned
`final_voltage` equals that best-seen voltage and is therefore at least
the initial voltage; and the returned `q_injected` is `best_q` when
`best_q > 0` and otherwise the last injection tried — which, under a
plateau with no recorded improvement, need not belong to the best-voltage
state observed. -/
theorem C2_amended (solver : Solver) (fuel : Nat) (st : NetState) (bus : Nat)
    (max_q step_q : ℚ) (lo : LoopOut)
    (hlo : (compensate_single_bus solver fuel st bus max_q step_q).loopOut = some lo) :
    (compensate_single_bus solver fuel st bus max_q step_q).result.initial_voltage ≤
      lo.best_voltage ∧
    (solver pfOpts30 lo.st = none →
      (compensate_single_bus solver fuel st bus max_q step_q).result.final_voltage =
        lo.best_voltage ∧
      (compensate_single_bus solver fuel st bus max_q step_q).result.initial_voltage ≤
        (compensate_single_bus solver fuel st bus max_q step_q).result.final_voltage) ∧
    (compensate_single_bus solver fuel st bus max_q step_q).result.q_injected =
      (if 0 < lo.best_q then lo.best_q else lo.q_inject) := by
  unfold compensate_single_bus at hlo ⊢
  cases h0 : solver pfOpts30 st with
  | none => rw [h0] at hlo; exact absurd hlo (by simp)
  | some res =>
    rw [h0] at hlo
    dsimp only at hlo ⊢
    by_cases hinit : (0.95 : ℚ) ≤ vmLookup res bus
    · rw [if_pos hinit] at hlo
      exact absurd hlo (by simp)
    · rw [if_neg hinit] at hlo ⊢
      dsimp only at hlo ⊢
      have hl :
          searchLoop solver bus max_q step_q fuel (dropShuntsAt (st.setRes res) bus)
            0 (vmLookup res bus) 0 (vmLookup res bus) = lo := by
        exact Option.some.inj hlo
      rw [hl]
      refine ⟨?_, ?_, rfl⟩
      · rw [← hl]
        exact searchLoop_best_voltage_mono solver bus max_q step_q fuel _ 0
          (vmLookup res bus) 0 (vmLookup res bus)
      · intro hfail
        rw [hfail]
        refine ⟨rfl, ?_⟩
        rw [← hl]
        exact searchLoop_best_voltage_mono solver bus max_q step_q fuel _ 0
          (vmLookup res bus) 0 (vmLookup res bus)

/-- C2 witness: a concrete run with `dipFailSolver`, whose loop dips on the
first step (plateau exit, best pair (0, 0.90)) and whose final re-solve
fails, so the returned final voltage is the best-seen 0.90. -/
theorem C2_witness :
    (compensate_single_bus dipFailSolver 50 emptyNet 0 100 2).loopOut =
      some dipLoopOut ∧
    ((compensate_single_bus dipFailSolver 50 emptyNet 0 100 2).result.initial_voltage ≤
      dipLoopOut.best_voltage ∧
    (dipFailSolver pfOpts30 dipLoopOut.st = none →
      (compensate_single_bus dipFailSolver 50 emptyNet 0 100 2).result.final_voltage =
        dipLoopOut.best_voltage ∧
      (compensate_single_bus dipFailSolver 50 emptyNet 0 100 2).result.initial_voltage ≤
        (compensate_single_bus dipFailSolver 50 emptyNet 0 100 2).result.final_voltage) ∧
    (compensate_single_bus dipFailSolver 50 emptyNet 0 100 2).result.q_injected =
      (if 0 < dipLoopOut.best_q then dipLoopOut.best_q else dipLoopOut.q_inject)) :=
  ⟨of_decide_eq_true (by with_unfolding_all rfl),
    C2_amended dipFailSolver 50 emptyNet 0 100 2 dipLoopOut
      (of_decide_eq_true (by with_unfolding_all rfl))⟩

/-! ### Claim C6 -/

/-- Every branch of `_compensate_single_bus` reports the bus it was asked
to compensate. -/
lemma compensate_single_bus_bus_id (solver : Solver) (fuel : Nat) (st : NetState)
    (bus : Nat) (max_q step_q : ℚ) :
    (compensate_single_bus solver fuel st bus max_q step_q).result.bus_id = bus := by
  unfold compensate_single_bus
  split
  · rfl
  · dsimp only
    split
    · rfl
    · rfl

/-- The accumulation loop of `_global_compensation` appends one entry per
listed bus, in order, and keeps the running total equal to the sum of the
accumulated `q_injected` fields. -/
lemma globalGo_spec (solver : Solver) (fuel : Nat) :
    ∀ (bs : List Nat) (acc : List CompResult) (total : ℚ) (st : NetState),
      total = (acc.map (fun r => r.q_injected)).sum →
      ((globalGo solver fuel bs acc total st).1.map (fun r => r.bus_id) =
          acc.map (fun r => r.bus_id) ++ bs) ∧
      (globalGo solver fuel bs acc total st).2.1 =
        ((globalGo solver fuel bs acc total st).1.map (fun r => r.q_injected)).sum := by
  intro bs
  induction bs with
  | nil =>
    intro acc total st h
    simp [globalGo, h]
  | cons b rest ih =>
    intro acc total st h
    simp only [globalGo]
    refine ⟨?_, ?_⟩
    · rw [(ih _ _ _ (by simp [h])).1]
      simp [compensate_single_bus_bus_id]
    · exact (ih _ _ _ (by simp [h])).2

/-- The violating buses form a duplicate-free list whenever the solve
result has duplicate-free bus keys. -/
lemma weakBuses_nodup (st : NetState) (h : (st.res.map Prod.fst).Nodup) :
    (weakBuses st).Nodup := by
  unfold weakBuses
  exact List.Nodup.sublist (List.Sublist.map Prod.fst (List.filter_sublist _)) h

/-- C6: `_global_compensation` returns a total equal to the sum of the
`q_injected` fields of its entries, and one entry per bus violating the
0.95 p.u. threshold at invocation time, in order (one entry per violating
bus in the strict sense whenever the solve result keys are
duplicate-free). -/
theorem C6_global_totals (solver : Solver) (fuel : Nat) (st : NetState) :
    (global_compensation solver fuel st).1.total_q_injected =
      (((global_compensation solver fuel st).1.compensated_buses).map
        (fun r => r.q_injected)).sum ∧
    ((global_compensation solver fuel st).1.compensated_buses).map
        (fun r => r.bus_id) = weakBuses st ∧
    ((st.res.map Prod.fst).Nodup →
      (((global_compensation solver fuel st).1.compensated_buses).map
        (fun r => r.bus_id)).Nodup) := by
  unfold global_compensation
  dsimp only
  split
  · next h =>
    have he : weakBuses st = [] := by simpa using h
    simp [noCompensationResult, he]
  · next h =>
    have hg := globalGo_spec solver fuel (weakBuses st) [] 0 st (by simp)
    have hmap : ((globalGo solver fuel (weakBuses st) [] 0 st).1.map
        (fun r => r.bus_id)) = weakBuses st := by
      simpa using hg.1
    refine ⟨hg.2, hmap, fun hnd => ?_⟩
    rw [hmap]
    exact weakBuses_nodup st hnd

/-! ### Claim C9 -/

lemma filter_eq_of_filter_ne (l : List Shunt) (bus : Nat) :
    (l.filter (fun s => s.bus ≠ bus)).filter (fun s => s.bus = bus) = [] := by
  induction l with
  | nil => rfl
  | cons a t ih =>
    by_cases ha : a.bus = bus
    · simp [ha, ih]
    · simp [ha, ih]

/-- After `dropShuntsAt` no shunt remains at the bus: any shunt present is
removed before a new one is created. -/
lemma shuntsAt_dropShuntsAt (st : NetState) (bus : Nat) :
    shuntsAt (dropShuntsAt st bus) bus = [] := by
  unfold shuntsAt dropShuntsAt
  split
  · next h => simpa using h
  · exact filter_eq_of_filter_ne st.shunts bus

/-- Replacing the shunt at a bus (drop then create) leaves exactly the new
shunt there. -/
lemma shuntsAt_create_drop (st : NetState) (bus : Nat) (q : ℚ) (n : String) :
    shuntsAt (createShunt (dropShuntsAt st bus) bus q n) bus = [⟨bus, 0, q, n⟩] := by
  have h := shuntsAt_dropShuntsAt st bus
  unfold shuntsAt at h ⊢
  unfold createShunt
  simp only [NetState.setShunts, List.filter_append]
  rw [h]
  simp

@[simp] lemma shuntsAt_setRes (st : NetState) (r : List (Nat × ℚ)) (bus : Nat) :
    shuntsAt (st.setRes r) bus = shuntsAt st bus := rfl

/-- Every network state handed to the solver by the search loop carries
exactly one shunt at the target bus. -/
lemma searchLoop_solveStates_one (solver : Solver) (bus : Nat) (max_q step_q : ℚ) :
    ∀ (fuel : Nat) (st : NetState) (q pv bq bv : ℚ),
      ∀ s ∈ (searchLoop solver bus max_q step_q fuel st q pv bq bv).solveStates,
        (shuntsAt s bus).length = 1 := by
  intro fuel
  induction fuel with
  | zero =>
    intro st q pv bq bv s hs
    unfold searchLoop at hs
    split at hs <;> simp at hs
  | succ n ih =>
    intro st q pv bq bv s hs
    simp only [searchLoop] at hs
    split at hs
    · split at hs
      · split at hs
        · simp at hs
          subst hs
          simp [shuntsAt_create_drop]
        · split at hs
          · simp at hs
            subst hs
            simp [shuntsAt_create_drop]
          · simp only [List.mem_cons] at hs
            rcases hs with rfl | hs
            · simp [shuntsAt_create_drop]
            · exact ih _ _ _ _ _ s hs
      · simp at hs
        subst hs
        simp [shuntsAt_create_drop]
    · simp at hs

/-- The search loop never leaves more than one shunt at the target bus. -/
lemma searchLoop_final_le_one (solver : Solver) (bus : Nat) (max_q step_q : ℚ) :
    ∀ (fuel : Nat) (st : NetState) (q pv bq bv : ℚ),
      (shuntsAt st bus).length ≤ 1 →
      (shuntsAt (searchLoop solver bus max_q step_q fuel st q pv bq bv).st bus).length ≤ 1 := by
  intro fuel
  induction fuel with
  | zero =>
    intro st q pv bq bv h
    unfold searchLoop
    split <;> exact h
  | succ n ih =>
    intro st q pv bq bv h
    simp only [searchLoop]
    split
    · split
      · split
        · simp [shuntsAt_create_drop]
        · split
          · simp [shuntsAt_create_drop]
          · exact ih _ _ _ _ _ (by simp [shuntsAt_create_drop])
      · split
        · split
          · simp [shuntsAt_create_drop]
          · simp [shuntsAt_create_drop]
        · simp [shuntsAt_dropShuntsAt]
    · exact h

/-- C9: during every iteration of the search loop of
`_compensate_single_bus`, at most one compensation shunt exists at the
target bus: every state handed to the solver carries exactly one shunt at
the bus, the loop's final state carries at most one, and dropping the
shunts at a bus (done at search start and before each re-creation) always
leaves none. -/
theorem C9_one_shunt_per_bus (solver : Solver) (fuel : Nat) (st : NetState)
    (bus : Nat) (max_q step_q : ℚ) (lo : LoopOut)
    (hlo : (compensate_single_bus solver fuel st bus max_q step_q).loopOut = some lo) :
    (∀ s ∈ lo.solveStates, (shuntsAt s bus).length = 1) ∧
    (shuntsAt lo.st bus).length ≤ 1 ∧
    (∀ st2 : NetState, shuntsAt (dropShuntsAt st2 bus) bus = []) := by
  unfold compensate_single_bus at hlo
  cases h0 : solver pfOpts30 st with
  | none => rw [h0] at hlo; exact absurd hlo (by simp)
  | some res =>
    rw [h0] at hlo
    dsimp only at hlo
    by_cases hinit : (0.95 : ℚ) ≤ vmLookup res bus
    · rw [if_pos hinit] at hlo
      exact absurd hlo (by simp)
    · rw [if_neg hinit] at hlo
      dsimp only at hlo
      have hl := Option.some.inj hlo
      refine ⟨?_, ?_, fun st2 => shuntsAt_dropShuntsAt st2 bus⟩
      · rw [← hl]
        exact fun s hs =>
          searchLoop_solveStates_one solver bus max_q step_q fuel _ 0 _ 0 _ s hs
      · rw [← hl]
        exact searchLoop_final_le_one solver bus max_q step_q fuel _ 0 _ 0 _
          (by rw [shuntsAt_dropShuntsAt]; simp)

/-- C9 witness: in the concrete dip run, the single solver call of the
loop sees exactly one shunt at bus 0, and the loop's final state keeps at
most one. -/
theorem C9_witness :
    (shuntsAt (⟨[], [⟨0, 0, -2, "Compensation_Bus_0"⟩], [(0, (0.9 : ℚ))], []⟩ : NetState) 0).length = 1 ∧
    (shuntsAt dipLoopOut.st 0).length ≤ 1 := by
  have h := C9_one_shunt_per_bus dipFailSolver 50 emptyNet 0 100 2 dipLoopOut
    (of_decide_eq_true (by with_unfolding_all rfl))
  exact ⟨h.1 _ (of_decide_eq_true (by with_unfolding_all rfl)), h.2.1⟩

/-! ### Claim C10 -/

/-- Where the search loop leaves the shunt at the bus, by exit kind: a
plateau keeps the last-created shunt (magnitude `q_inject`); a solver
failure reverts to the best configuration — no shunt at all when
`best_q` is not positive. -/
lemma searchLoop_exit_shunts (solver : Solver) (bus : Nat) (max_q step_q : ℚ) :
    ∀ (fuel : Nat) (st : NetState) (q pv bq bv : ℚ) (out : LoopOut),
      searchLoop solver bus max_q step_q fuel st q pv bq bv = out →
      (out.exit = ExitKind.plateau →
        shuntsAt out.st bus = [⟨bus, 0, -out.q_inject, compName bus⟩]) ∧
      (out.exit = ExitKind.solverFail →
        (out.best_q ≤ 0 → shuntsAt out.st bus = []) ∧
        (0 < out.best_q →
          shuntsAt out.st bus = [⟨bus, 0, -out.best_q, compName bus⟩])) := by
  intro fuel
  induction fuel with
  | zero =>
    intro st q pv bq bv out hout
    unfold searchLoop at hout
    split at hout <;> subst hout <;>
      exact ⟨fun h => by simp at h, fun h => by simp at h⟩
  | succ n ih =>
    intro st q pv bq bv out hout
    simp only [searchLoop] at hout
    split at hout
    · split at hout
      · split at hout
        · subst hout
          exact ⟨fun h => by simp at h, fun h => by simp at h⟩
        · split at hout
          · subst hout
            refine ⟨fun _ => ?_, fun h => by simp at h⟩
            simp [shuntsAt_create_drop]
          · subst hout
            dsimp only
            exact ih _ _ _ _ _ _ rfl
      · subst hout
        refine ⟨fun h => by simp at h, fun _ => ?_⟩
        dsimp only
        by_cases hbq : 0 < bq
        · refine ⟨fun hle => absurd hbq (not_lt.mpr hle), fun _ => ?_⟩
          rw [if_pos hbq]
          split
          · simp [shuntsAt_create_drop]
          · simp [shuntsAt_create_drop]
        · refine ⟨fun _ => ?_, fun h0 => absurd h0 hbq⟩
          rw [if_neg hbq]
          exact shuntsAt_dropShuntsAt _ bus
    · subst hout
      exact ⟨fun h => by simp at h, fun h => by simp at h⟩

/-- C10: when the search loop of `_compensate_single_bus` terminates by
the plateau condition, the last-created shunt (magnitude `q_inject`)
remains installed at the bus; the revert-to-best path runs only for the
solver-failure exit, and there, if `best_q = 0`, the failing shunt is
removed and no replacement shunt is created; the final solve of
`_compensate_single_bus` leaves the loop's shunt configuration
untouched. -/
theorem C10_plateau_keeps_last_shunt (solver : Solver) (fuel : Nat)
    (st : NetState) (bus : Nat) (max_q step_q : ℚ) (lo : LoopOut)
    (hlo : (compensate_single_bus solver fuel st bus max_q step_q).loopOut = some lo) :
    (lo.exit = ExitKind.plateau →
      shuntsAt lo.st bus = [⟨bus, 0, -lo.q_inject, compName bus⟩]) ∧
    (lo.exit = ExitKind.solverFail →
      (lo.best_q ≤ 0 → shuntsAt lo.st bus = []) ∧
      (0 < lo.best_q → shuntsAt lo.st bus = [⟨bus, 0, -lo.best_q, compName bus⟩])) ∧
    shuntsAt (compensate_single_bus solver fuel st bus max_q step_q).st bus =
      shuntsAt lo.st bus := by
  unfold compensate_single_bus at hlo ⊢
  cases h0 : solver pfOpts30 st with
  | none => rw [h0] at hlo; exact absurd hlo (by simp)
  | some res =>
    rw [h0] at hlo
    dsimp only at hlo ⊢
    by_cases hinit : (0.95 : ℚ) ≤ vmLookup res bus
    · rw [if_pos hinit] at hlo
      exact absurd hlo (by simp)
    · rw [if_neg hinit] at hlo ⊢
      dsimp only at hlo ⊢
      have hl := Option.some.inj hlo
      have hmain := searchLoop_exit_shunts solver bus max_q step_q fuel
        (dropShuntsAt (st.setRes res) bus) 0 (vmLookup res bus) 0 (vmLookup res bus) lo hl
      refine ⟨hmain.1, hmain.2, ?_⟩
      rw [hl]
      split
      · rfl
      · rfl

/-- C10 witness: the plateau run keeps the last shunt (magnitude 2), and
the first-step-failure run with `best_q = 0` leaves no shunt at the bus. -/
theorem C10_witness :
    shuntsAt dipLoopOut.st 0 = [⟨0, 0, -dipLoopOut.q_inject, compName 0⟩] ∧
    shuntsAt failLoopOut.st 0 = [] :=
  ⟨(C10_plateau_keeps_last_shunt dipFailSolver 50 emptyNet 0 100 2 dipLoopOut
      (of_decide_eq_true (by with_unfolding_all rfl))).1
      (of_decide_eq_true (by with_unfolding_all rfl)),
   ((C10_plateau_keeps_last_shunt loopFailSolver 50 emptyNet 0 100 2 failLoopOut
      (of_decide_eq_true (by with_unfolding_all rfl))).2.1
      (of_decide_eq_true (by with_unfolding_all rfl))).1
      (of_decide_eq_true (by with_unfolding_all rfl))⟩

/-- C6 witness: applying the theorem at a concrete violating network shows
the entry list is duplicate-free. -/
theorem C6_witness :
    ((global_compensation noneSolver 50 weakNet).1.compensated_buses.map
      (fun r => r.bus_id)).Nodup :=
  (C6_global_totals noneSolver 50 weakNet).2.2 (by decide)

/-! ### Claim C5 -/

/-- With fuel `⌈(max_q - q)/step_q⌉` the search loop never runs out of
fuel: the `while q_inject < max_q` loop performs at most that many
iterations for a positive step. -/
lemma searchLoop_no_fuelOut (solver : Solver) (bus : Nat) (max_q step_q : ℚ)
    (hs : 0 < step_q) :
    ∀ (fuel : Nat) (st : NetState) (q pv bq bv : ℚ),
      searchFuelBound max_q step_q q ≤ fuel →
      (searchLoop solver bus max_q step_q fuel st q pv bq bv).exit ≠ ExitKind.fuelOut := by
  intro fuel
  induction fuel with
  | zero =>
    intro st q pv bq bv hb
    unfold searchLoop
    split
    · next hq =>
      exfalso
      have hpos : (0 : ℚ) < (max_q - q) / step_q := div_pos (by linarith) hs
      have hc : 0 < ⌈(max_q - q) / step_q⌉ := Int.ceil_pos.mpr hpos
      unfold searchFuelBound at hb
      omega
    · simp
  | succ n ih =>
    intro st q pv bq bv hb
    simp only [searchLoop]
    split
    · next hq =>
      split
      · split
        · simp
        · split
          · simp
          · dsimp only
            apply ih
            have hc : 0 < ⌈(max_q - q) / step_q⌉ :=
              Int.ceil_pos.mpr (div_pos (by linarith) hs)
            have heq : (max_q - (q + step_q)) / step_q = (max_q - q) / step_q - 1 := by
              field_simp
              ring
            have hceil : ⌈(max_q - (q + step_q)) / step_q⌉ =
                ⌈(max_q - q) / step_q⌉ - 1 := by
              rw [heq, Int.ceil_sub_one]
            unfold searchFuelBound at hb ⊢
            omega
      · simp
    · simp

/-- The number of solver calls made by the search loop is bounded by the
fuel. -/
lemma searchLoop_solveStates_length (solver : Solver) (bus : Nat)
    (max_q step_q : ℚ) :
    ∀ (fuel : Nat) (st : NetState) (q pv bq bv : ℚ),
      (searchLoop solver bus max_q step_q fuel st q pv bq bv).solveStates.length ≤ fuel := by
  intro fuel
  induction fuel with
  | zero =>
    intro st q pv bq bv
    unfold searchLoop
    split <;> simp
  | succ n ih =>
    intro st q pv bq bv
    simp only [searchLoop]
    split
    · split
      · split
        · simp
        · split
          · simp
          · dsimp only
            simpa using ih _ _ _ _ _
      · simp
    · simp

/-- With fuel `⌈(max_q - q)/step_q⌉ + 1` the VS_RPC loop never runs out of
fuel: the `while voltage < 0.95 and q_inject <= max_q` loop terminates for
a positive step. -/
lemma rpcLoop_no_fuelOut (solver : Solver) (bus : Nat) (max_q step_q : ℚ)
    (hs : 0 < step_q) :
    ∀ (fuel : Nat) (st : NetState) (q v pv : ℚ),
      rpcFuelBound max_q step_q q ≤ fuel →
      (rpcLoop solver bus max_q step_q fuel st q v pv).exit ≠ ExitKind.fuelOut := by
  intro fuel
  induction fuel with
  | zero =>
    intro st q v pv hb
    unfold rpcLoop
    split
    · next hcond =>
      exfalso
      unfold rpcFuelBound at hb
      rw [if_pos hcond.2] at hb
      omega
    · simp
  | succ n ih =>
    intro st q v pv hb
    simp only [rpcLoop]
    split
    · next hcond =>
      split
      · simp
      · split
        · simp
        · apply ih
          unfold rpcFuelBound at hb ⊢
          rw [if_pos hcond.2] at hb
          by_cases h2 : q + step_q ≤ max_q
      
          · rw [if_pos h2]
            have hge : (1 : ℚ) ≤ (max_q - q) / step_q := by
              rw [le_div_iff₀ hs]
              linarith
            have hc : 0 < ⌈(max_q - q) / step_q⌉ := Int.ceil_pos.mpr (by linarith)
            have heq : (max_q - (q + step_q)) / step_q = (max_q - q) / step_q - 1 := by
              field_simp
              ring
            have hceil : ⌈(max_q - (q + step_q)) / step_q⌉ =
                ⌈(max_q - q) / step_q⌉ - 1 := by
              rw [heq, Int.ceil_sub_one]
            omega
          · rw [if_neg h2]
            omega
    · simp

/-- C5: for a positive step, the injection search loop of
`_compensate_single_bus` terminates within `⌈max_q/step_q⌉` iterations
(its exit is never fuel exhaustion at that fuel, and it makes at most one
solver attempt per unit of fuel); the analogous VS_RPC.py loop terminates
within its `q_inject <= max_q` bound; with the defaults `max_q = 100`,
`step_q = 2` the bound is 50 iterations. -/
theorem C5_search_terminates :
    (∀ (solver : Solver) (bus : Nat) (max_q step_q : ℚ) (fuel : Nat)
        (st : NetState) (q pv bq bv : ℚ), 0 < step_q →
        searchFuelBound max_q step_q q ≤ fuel →
        (searchLoop solver bus max_q step_q fuel st q pv bq bv).exit ≠
          ExitKind.fuelOut) ∧
    (∀ (solver : Solver) (bus : Nat) (max_q step_q : ℚ) (fuel : Nat)
        (st : NetState) (q pv bq bv : ℚ),
        (searchLoop solver bus max_q step_q fuel st q pv bq bv).solveStates.length ≤
          fuel) ∧
    (∀ (solver : Solver) (bus : Nat) (max_q step_q : ℚ) (fuel : Nat)
        (st : NetState) (q v pv : ℚ), 0 < step_q →
        rpcFuelBound max_q step_q q ≤ fuel →
        (rpcLoop solver bus max_q step_q fuel st q v pv).exit ≠ ExitKind.fuelOut) ∧
    searchFuelBound 100 2 0 = 50 :=
  ⟨fun solver bus max_q step_q fuel st q pv bq bv hs hb =>
      searchLoop_no_fuelOut solver bus max_q step_q hs fuel st q pv bq bv hb,
   fun solver bus max_q step_q fuel st q pv bq bv =>
      searchLoop_solveStates_length solver bus max_q step_q fuel st q pv bq bv,
   fun solver bus max_q step_q fuel st q v pv hs hb =>
      rpcLoop_no_fuelOut solver bus max_q step_q hs fuel st q v pv hb,
   by norm_num [searchFuelBound]; decide⟩

/-- C5 witness: concrete runs of both loops at their bounds with a
never-converging solver. -/
theorem C5_witness :
    (searchLoop noneSolver 0 100 2 50 weakNet 0 (0.9 : ℚ) 0 (0.9 : ℚ)).exit ≠
      ExitKind.fuelOut ∧
    (rpcLoop noneSolver 0 100 1 101 weakNet 0 (0.9 : ℚ) (0.9 : ℚ)).exit ≠
      ExitKind.fuelOut :=
  ⟨C5_search_terminates.1 noneSolver 0 100 2 50 weakNet 0 (0.9 : ℚ) 0 (0.9 : ℚ)
      (of_decide_eq_true (by with_unfolding_all rfl))
      (of_decide_eq_true (by with_unfolding_all rfl)),
   C5_search_terminates.2.2.1 noneSolver 0 100 1 101 weakNet 0 (0.9 : ℚ) (0.9 : ℚ)
      (of_decide_eq_true (by with_unfolding_all rfl))
      (of_decide_eq_true (by with_unfolding_all rfl))⟩

/-! ### Claim C8 -/

lemma mem_insertDescBy {α : Type} (key : α → ℚ) (a x : α) (l : List α) :
    x ∈ insertDescBy key a l ↔ x = a ∨ x ∈ l := by
  induction l with
  | nil => simp [insertDescBy]
  | cons b bs ih =>
    rw [insertDescBy]
    split
    · simp [List.mem_cons, or_comm, or_assoc, or_left_comm]
    · simp only [List.mem_cons, ih]
      tauto

lemma mem_sortDescBy {α : Type} (key : α → ℚ) (x : α) (l : List α) :
    x ∈ sortDescBy key l ↔ x ∈ l := by
  induction l with
  | nil => simp [sortDescBy]
  | cons a as ih =>
    rw [sortDescBy, mem_insertDescBy]
    simp [ih]

lemma pairwise_insertDescBy {α : Type} (key : α → ℚ) (a : α) (l : List α)
    (h : l.Pairwise (fun x y => key y ≤ key x)) :
    (insertDescBy key a l).Pairwise (fun x y => key y ≤ key x) := by
  induction l with
  | nil => simp [insertDescBy]
  | cons b bs ih =>
    rw [List.pairwise_cons] at h
    rw [insertDescBy]
    split
    · next hb =>
      refine List.Pairwise.cons ?_ (List.Pairwise.cons h.1 h.2)
      intro x hx
      rcases List.mem_cons.mp hx with rfl | hx
      · exact hb
      · exact le_trans (h.1 x hx) hb
    · next hb =>
      refine List.Pairwise.cons ?_ (ih h.2)
      intro x hx
      rcases (mem_insertDescBy key a x bs).mp hx with rfl | hx
      · exact le_of_lt (lt_of_not_le hb)
      · exact h.1 x hx

/-- The stable descending sort really is descending in the key. -/
lemma pairwise_sortDescBy {α : Type} (key : α → ℚ) (l : List α) :
    (sortDescBy key l).Pairwise (fun x y => key y ≤ key x) := by
  induction l with
  | nil => simp [sortDescBy]
  | cons a as ih => exact pairwise_insertDescBy key a _ ih

lemma insertDescBy_map {α β : Type} (key : β → ℚ) (f : α → β) (a : α) (l : List α) :
    insertDescBy key (f a) (l.map f) =
      (insertDescBy (fun x => key (f x)) a l).map f := by
  induction l with
  | nil => rfl
  | cons b bs ih =>
    simp only [List.map_cons, insertDescBy]
    split
    · rfl
    · rw [List.map_cons, ih]

lemma sortDescBy_map {α β : Type} (key : β → ℚ) (f : α → β) (l : List α) :
    sortDescBy key (l.map f) = (sortDescBy (fun x => key (f x)) l).map f := by
  induction l with
  | nil => rfl
  | cons a as ih =>
    simp only [List.map_cons, sortDescBy]
    rw [ih, insertDescBy_map]

/-- With duplicate-free bus keys, `vmLookup` recovers the recorded pair. -/
lemma vmLookup_eq_of_mem (l : List (Nat × ℚ)) (p : Nat × ℚ)
    (hnd : (l.map Prod.fst).Nodup) (hm : p ∈ l) :
    vmLookup l p.1 = p.2 := by
  induction l with
  | nil => cases hm
  | cons a t ih =>
    rw [List.map_cons, List.nodup_cons] at hnd
    rcases List.mem_cons.mp hm with rfl | hm
    · simp [vmLookup]
    · rw [vmLookup]
      split
      · next heq =>
        exfalso
        exact hnd.1 (heq ▸ List.mem_map.mpr ⟨p, hm, rfl⟩)
      · exact ih hnd.2 hm

/-- Every bus listed as violating really has a recorded voltage below the
threshold (under duplicate-free keys). -/
lemma weakBuses_voltage_lt (st : NetState) (hnd : (st.res.map Prod.fst).Nodup)
    (b : Nat) (hb : b ∈ weakBuses st) :
    vmLookup st.res b < (0.95 : ℚ) := by
  unfold weakBuses at hb
  rcases List.mem_map.mp hb with ⟨p, hp, rfl⟩
  have hmem : p ∈ st.res := List.mem_of_mem_filter hp
  have hlt : p.2 < (0.95 : ℚ) := by simpa using List.of_mem_filter hp
  rw [vmLookup_eq_of_mem st.res p hnd hmem]
  exact hlt

/-- When every triple carries a below-threshold stale voltage, the code's
per-bus loop over triples agrees with the spec's loop over bus ids. -/
lemma optimalGo_eq_spec (solver : Solver) (fuel : Nat) :
    ∀ (ts : List (Nat × ℚ × ℚ)) (acc : List CompResult) (total : ℚ) (st : NetState),
      (∀ t ∈ ts, t.2.2 < (0.95 : ℚ)) →
      optimalGo solver fuel ts acc total st =
        optimalSpecGo solver fuel (ts.map (fun t => t.1)) acc total st := by
  intro ts
  induction ts with
  | nil => intro acc total st _; rfl
  | cons t rest ih =>
    intro acc total st h
    have ht : t.2.2 < (0.95 : ℚ) := h t (List.mem_cons_self t rest)
    simp only [optimalGo, optimalSpecGo, List.map_cons]
    rw [if_pos ht]
    cases hres : solver pfOptsDefault st with
    | none => rfl
    | some res =>
      dsimp only
      by_cases hv : vmLookup res t.1 < (0.95 : ℚ)
      · rw [if_pos hv, if_pos hv]
        exact ih _ _ _ (fun x hx => h x (List.mem_cons_of_mem t hx))
      · rw [if_neg hv, if_neg hv]
        exact ih _ _ _ (fun x hx => h x (List.mem_cons_of_mem t hx))

/-- C8: `_optimal_compensation` behaves exactly as the spec words it when
the solve result has duplicate-free bus keys: priority score `1/voltage`
per violating bus, buses processed in descending score order (the
redundant stale-voltage re-test always passes), a re-solve and re-check
before each bus (skipping it when no longer below 0.95 p.u.), and each
launched search capped at 75 MVAr; and the processing order produced by
the sort is descending in the score. -/
theorem C8_optimal_matches_spec (solver : Solver) (fuel : Nat) (st : NetState)
    (hnd : (st.res.map Prod.fst).Nodup) :
    optimal_compensation solver fuel st = optimalCompensationSpec solver fuel st ∧
    (∀ l : List (Nat × ℚ × ℚ),
      (sortDescBy (fun t => t.2.1) l).Pairwise (fun a b => b.2.1 ≤ a.2.1)) := by
  refine ⟨?_, fun l => pairwise_sortDescBy (fun t => t.2.1) l⟩
  unfold optimal_compensation optimalCompensationSpec
  dsimp only
  split
  · rfl
  · have hmap : sortDescBy (fun t : Nat × ℚ × ℚ => t.2.1)
        ((weakBuses st).map (fun b => (b, 1 / vmLookup st.res b, vmLookup st.res b))) =
        (sortDescBy (fun b => 1 / vmLookup st.res b) (weakBuses st)).map
          (fun b => (b, 1 / vmLookup st.res b, vmLookup st.res b)) :=
      sortDescBy_map _ _ _
    have hvolt : ∀ t ∈ (sortDescBy (fun b => 1 / vmLookup st.res b)
        (weakBuses st)).map (fun b => (b, 1 / vmLookup st.res b, vmLookup st.res b)),
        t.2.2 < (0.95 : ℚ) := by
      intro t htm
      rcases List.mem_map.mp htm with ⟨b, hb, rfl⟩
      exact weakBuses_voltage_lt st hnd b
        ((mem_sortDescBy (fun b => 1 / vmLookup st.res b) b (weakBuses st)).mp hb)
    rw [hmap, optimalGo_eq_spec solver fuel _ [] 0 st hvolt, List.map_map]
    have hid : ((fun t : Nat × ℚ × ℚ => t.1) ∘
        (fun b => (b, 1 / vmLookup st.res b, vmLookup st.res b))) = fun b => b := rfl
    rw [hid, List.map_id']

/-- C8 witness: a concrete violating network with duplicate-free keys. -/
theorem C8_witness :
    optimal_compensation noneSolver 50 weakNet =
      optimalCompensationSpec noneSolver 50 weakNet :=
  (C8_optimal_matches_spec noneSolver 50 weakNet (by decide)).1
